import Mathlib

/-!
Verification of the catalog query engine of `product-catalog-cms`.

The engine (filter, relevance search, sort, pagination, facet summary,
orchestrator) lives in `src/lib/db.ts` (filter-service and
pagination-service sections), with the orchestrator `getProducts` in the
products service.  JavaScript strings are modelled as `List Char`
(`Str`), JavaScript numbers that stay integral as `Int`/`Nat`, and the
non-finite values produced by `Math.min()`/`Math.max()` of an empty
spread as the extended type `JsNum`.  `Array.prototype.sort`, which is
stable in modern JavaScript, is modelled by the structurally recursive
stable insertion sort `stableSortBy` (the output of a stable sort is
uniquely determined by the comparator, so any stable implementation is
an exact model).
-/

/-- JavaScript strings, modelled as lists of characters so that every
string operation reduces in the kernel. -/
abbrev Str := List Char

/-- `s.toLowerCase()`. -/
def strLower (s : Str) : Str := s.map Char.toLower

/-- `s.startsWith(pre)`: first argument is the candidate leading piece. -/
def startsWithL : Str → Str → Bool
  | [], _ => true
  | _ :: _, [] => false
  | a :: as, b :: bs => a == b && startsWithL as bs

/-- `hay.includes(needle)` (substring containment, `containsL needle hay`). -/
def containsL (needle : Str) : Str → Bool
  | [] => needle.isEmpty
  | c :: rest => startsWithL needle (c :: rest) || containsL needle rest

/-- `s.trim()`: strip whitespace from both ends. -/
def trimL (s : Str) : Str :=
  ((s.dropWhile Char.isWhitespace).reverse.dropWhile Char.isWhitespace).reverse

/-- `list.join(' ')`. -/
def joinSpace : List Str → Str
  | [] => []
  | [s] => s
  | s :: rest => s ++ (' ' :: joinSpace rest)

/-- Lexicographic comparison of character lists; models both
`a.localeCompare(b) <= 0` and the default ordinal string comparison of
`Array.prototype.sort()` for the plain ASCII data of this catalog. -/
def lexLe : Str → Str → Bool
  | [], _ => true
  | _ :: _, [] => false
  | a :: as, b :: bs => if a == b then lexLe as bs else decide (a < b)

/-- Insert `x` into `acc` after every element `y` with `le y x`;
building block of the stable sort. -/
def insertLe {α : Type} (le : α → α → Bool) (x : α) : List α → List α
  | [] => [x]
  | y :: ys => if le y x then y :: insertLe le x ys else x :: y :: ys

/-- Stable sort by the boolean relation `le` (`le a b` = "`a` may come
before `b`"); models the stable `Array.prototype.sort(cmp)` where
`le a b` stands for `cmp(a,b) <= 0`. -/
def stableSortBy {α : Type} (le : α → α → Bool) (l : List α) : List α :=
  l.foldl (fun acc x => insertLe le x acc) []

/-- A JavaScript number that may be the `Infinity` produced by
`Math.min()` / `-Infinity` produced by `Math.max()` of an empty spread;
all finite values in the engine are integers. -/
inductive JsNum where
  | posInf : JsNum
  | negInf : JsNum
  | num : Int → JsNum
deriving DecidableEq, Repr

/-- `Math.min(...xs)`. -/
def jsMinList : List Int → JsNum
  | [] => .posInf
  | x :: xs => .num (xs.foldl min x)

/-- `Math.max(...xs)`. -/
def jsMaxList : List Int → JsNum
  | [] => .negInf
  | x :: xs => .num (xs.foldl max x)

/-- `x || d` for a possibly-absent JavaScript number (`0` is falsy). -/
def jsOrNum (v : Option Int) (d : Int) : Int :=
  match v with
  | some x => if x == 0 then d else x
  | none => d

/-- `inventory` sub-record of a product (src/lib/types/product.ts). -/
structure Inventory where
  inStock : Bool
  quantity : Nat
  lowStockThreshold : Nat
  reservedQuantity : Nat
deriving DecidableEq, Repr

/-- optional `rating` sub-record of a product. -/
structure Rating where
  average : Rat
  count : Nat
deriving DecidableEq, Repr

/-- `Product` (src/lib/types/product.ts), restricted to the fields the
query engine reads; presentation-only fields (images, attributes,
publishedAt) are never touched by any engine function and are omitted.
Prices are integer minor units; timestamps are epoch milliseconds. -/
structure Product where
  id : Str := []
  slug : Str := []
  sku : Str := []
  name : Str := []
  description : Str := []
  longDescription : Option Str := none
  price : Int := 0
  originalPrice : Option Int := none
  currency : Str := []
  category : Str := []
  subcategory : Option Str := none
  tags : List Str := []
  inventory : Inventory := { inStock := false, quantity := 0, lowStockThreshold := 0, reservedQuantity := 0 }
  featured : Bool := false
  isNew : Bool := false
  rating : Option Rating := none
  createdAt : Int := 0
  updatedAt : Int := 0
deriving DecidableEq, Repr

/-- `FilterParams` (src/lib/types/product.ts): every field optional. -/
structure FilterParams where
  category : Option Str := none
  minPrice : Option Int := none
  maxPrice : Option Int := none
  inStock : Option Bool := none
  tags : Option (List Str) := none
  search : Option Str := none
  sortBy : Option Str := none
  page : Option Int := none
  limit : Option Int := none
deriving DecidableEq, Repr

/-- The searchable text of the free-text criterion of `filterProducts`:
`[name, description, ...tags, category].join(' ').toLowerCase()`. -/
def searchableText (product : Product) : Str :=
  strLower (joinSpace ([product.name, product.description] ++ product.tags ++ [product.category]))

/-- The predicate of `filterProducts` (src/lib/db.ts, filter-service):
the chain of early-return rejections, translated in source order.
JavaScript truthiness is kept: an empty category or search string and an
`inStock` of `false` impose no constraint. -/
def matchesFilters (filters : FilterParams) (product : Product) : Bool :=
  if (match filters.category with
      | some c => !c.isEmpty && product.category != c
      | none => false) then false
  else if (match filters.minPrice with
      | some m => decide (product.price < m)
      | none => false) then false
  else if (match filters.maxPrice with
      | some m => decide (m < product.price)
      | none => false) then false
  else if (match filters.inStock with
      | some b => b && !product.inventory.inStock
      | none => false) then false
  else if (match filters.tags with
      | some ts => !ts.isEmpty && !(ts.any fun filterTag => product.tags.contains filterTag)
      | none => false) then false
  else if (match filters.search with
      | some s => !s.isEmpty && !(containsL (trimL (strLower s)) (searchableText product))
      | none => false) then false
  else true

/-- `filterProducts` (src/lib/db.ts, filter-service). -/
def filterProducts (products : List Product) (filters : FilterParams) : List Product :=
  products.filter (matchesFilters filters)

/-- `b.rating?.average || 0` of the `rating` comparator. -/
def ratingValue (p : Product) : Rat :=
  match p.rating with
  | some r => r.average
  | none => 0

/-- `sortProducts` (src/lib/db.ts, filter-service): stable sort by one
of the recognized keys; absent or unrecognized key returns the input
order (the source copies the array first, which a pure function model
makes implicit). -/
def sortProducts (products : List Product) (sortBy : Option Str) : List Product :=
  match sortBy with
  | none => products
  | some key =>
    if key == "price-asc".toList then
      stableSortBy (fun a b => decide (a.price ≤ b.price)) products
    else if key == "price-desc".toList then
      stableSortBy (fun a b => decide (b.price ≤ a.price)) products
    else if key == "name".toList then
      stableSortBy (fun a b => lexLe a.name b.name) products
    else if key == "newest".toList then
      stableSortBy (fun a b => decide (b.createdAt ≤ a.createdAt)) products
    else if key == "rating".toList then
      stableSortBy (fun a b => decide (ratingValue b ≤ ratingValue a)) products
    else products

/-- The `name` clauses of the relevance scorer of `searchProducts`:
exact match 100, else contains 50 plus 10 more when the name starts
with the term. -/
def nameScoreOf (t : Str) (p : Product) : Nat :=
  if strLower p.name == t then 100
  else if containsL t (strLower p.name) then
    50 + (if startsWithL t (strLower p.name) then 10 else 0)
  else 0

/-- The `description` clause of the relevance scorer: contains gives 20. -/
def descScoreOf (t : Str) (p : Product) : Nat :=
  if containsL t (strLower p.description) then 20 else 0

/-- The `longDescription?` clause of the relevance scorer: contains
gives 10; an absent field contributes nothing (optional chaining). -/
def longDescScoreOf (t : Str) (p : Product) : Nat :=
  match p.longDescription with
  | some d => if containsL t (strLower d) then 10 else 0
  | none => 0

/-- The `tags.forEach` accumulation of the relevance scorer: 30 per
exact tag, else 10 per containing tag. -/
def tagsScoreOf (t : Str) (p : Product) : Nat :=
  p.tags.foldl
    (fun acc tag =>
      acc + (if strLower tag == t then 30 else if containsL t (strLower tag) then 10 else 0))
    0

/-- The `category` clause of the relevance scorer: contains gives 5. -/
def categoryScoreOf (t : Str) (p : Product) : Nat :=
  if containsL t (strLower p.category) then 5 else 0

/-- The complete relevance score of `searchProducts` (src/lib/db.ts,
filter-service) for an already lower-cased and trimmed term: the
sequential `score +=` accumulation, in source order, ending with the
featured boost of 5 and the in-stock boost of 3. -/
def scoreOf (t : Str) (p : Product) : Nat :=
  nameScoreOf t p + descScoreOf t p + longDescScoreOf t p + tagsScoreOf t p +
    categoryScoreOf t p + (if p.featured then 5 else 0) +
    (if p.inventory.inStock then 3 else 0)

/-- The relevance score written as the declarative table of weighted
contributions of specification section 4.2, one summand per table row,
with the featured row carrying the weight the code actually uses. -/
def scoreContributions (t : Str) (p : Product) : List Nat :=
  [ if strLower p.name == t then 100 else 0
  , if strLower p.name != t && containsL t (strLower p.name) then 50 else 0
  , if strLower p.name != t && containsL t (strLower p.name) && startsWithL t (strLower p.name) then 10 else 0
  , if containsL t (strLower p.description) then 20 else 0
  , match p.longDescription with
    | some d => if containsL t (strLower d) then 10 else 0
    | none => 0
  , (p.tags.map fun tag => if strLower tag == t then 30 else 0).sum
  , (p.tags.map fun tag => if strLower tag != t && containsL t (strLower tag) then 10 else 0).sum
  , if containsL t (strLower p.category) then 5 else 0
  , if p.featured then 5 else 0
  , if p.inventory.inStock then 3 else 0 ]

/-- `searchProducts` (src/lib/db.ts, filter-service): lower-case and
trim the query, return `[]` when the result is empty, otherwise score
every product, keep the strictly positive scores, stable-sort by score
descending and strip the scores. -/
def searchProducts (query : Str) (products : List Product) : List Product :=
  let searchTerm := trimL (strLower query)
  if searchTerm.isEmpty then []
  else
    (stableSortBy (fun a b => decide (b.2 ≤ a.2))
        ((products.map fun p => (p, scoreOf searchTerm p)).filter fun x => decide (0 < x.2))).map
      fun x => x.1

/-- `priceRange` of the facet summary. -/
structure PriceRange where
  min : JsNum
  max : JsNum
deriving DecidableEq, Repr

/-- Return type of `getAvailableFilterOptions`. -/
structure FacetSummary where
  categories : List Str
  tags : List Str
  priceRange : PriceRange
deriving DecidableEq, Repr

/-- `getAvailableFilterOptions` (src/lib/db.ts, filter-service):
deduplicated sorted categories and tags, and
`{min: Math.min(...prices), max: Math.max(...prices)}`. -/
def getAvailableFilterOptions (products : List Product) : FacetSummary :=
  { categories := stableSortBy lexLe ((products.map fun p => p.category).eraseDups)
  , tags := stableSortBy lexLe ((products.flatMap fun p => p.tags).eraseDups)
  , priceRange :=
      { min := jsMinList (products.map fun p => p.price)
      , max := jsMaxList (products.map fun p => p.price) } }

/-- Pagination metadata (src/lib/types/api.ts `PaginationMeta`). -/
structure PaginationMeta where
  page : Nat
  limit : Nat
  total : Nat
  totalPages : Nat
  hasNext : Bool
  hasPrev : Bool
deriving DecidableEq, Repr

/-- `PaginatedResponse<T>` as built by `paginateResults`. -/
structure PaginatedResponse (α : Type) where
  data : List α
  pagination : PaginationMeta
deriving DecidableEq, Repr

/-- `Math.max(1, Math.floor(page))` for an integral page argument. -/
def normPage (page : Int) : Nat := (max 1 page).toNat

/-- `Math.min(Math.max(1, Math.floor(limit)), 100)`. -/
def normLimit (limit : Int) : Nat := min (max 1 limit).toNat 100

/-- `paginateResults` (src/lib/db.ts, pagination-service): normalize
page and limit, compute `totalPages = ceil(total/limit)`, slice
`[startIndex, startIndex+limit)` and build the metadata. -/
def paginateResults {α : Type} (items : List α) (page : Int) (limit : Int) :
    PaginatedResponse α :=
  let currentPage := normPage page
  let itemsPerPage := normLimit limit
  let total := items.length
  let totalPages := (total + itemsPerPage - 1) / itemsPerPage
  let startIndex := (currentPage - 1) * itemsPerPage
  let data := (items.drop startIndex).take itemsPerPage
  { data := data
  , pagination :=
      { page := currentPage
      , limit := itemsPerPage
      , total := total
      , totalPages := totalPages
      , hasNext := decide (currentPage < totalPages)
      , hasPrev := decide (1 < currentPage) } }

/-- `getProducts` (products service, src/unnamed/part_006): the
orchestrator, parameterized by the product snapshot the source reads
from its module-level collection.  `filters.page || 1` and
`filters.limit || 12` keep JavaScript falsiness of `0`. -/
def getProducts (allProducts : List Product) (filters : FilterParams) :
    PaginatedResponse Product :=
  let results := filterProducts allProducts filters
  let sorted := sortProducts results filters.sortBy
  let page := jsOrNum filters.page 1
  let limit := jsOrNum filters.limit 12
  paginateResults sorted page limit

/-- Response envelope of the pipeline the specification describes:
one page of results plus the facet summary. -/
structure SpecEnvelope where
  page : PaginatedResponse Product
  facets : FacetSummary
deriving DecidableEq, Repr

/-- The fixed pipeline of specification section 4.6, assembled (as the
claim states it) from the repository's own stage functions: filter, then
the relevance-scoring search stage whenever the trimmed query is
non-empty, then sort, then paginate, with the facet summary computed
over the post-filter pre-pagination set.  This definition follows the
specification's words and exists to be compared with `getProducts`. -/
def specQueryPipeline (allProducts : List Product) (filters : FilterParams) :
    SpecEnvelope :=
  let filtered := filterProducts allProducts filters
  let searched :=
    match filters.search with
    | some q => if (trimL (strLower q)).isEmpty then filtered else searchProducts q filtered
    | none => filtered
  let sorted := sortProducts searched filters.sortBy
  { page := paginateResults sorted (jsOrNum filters.page 1) (jsOrNum filters.limit 12)
  , facets := getAvailableFilterOptions sorted }

/-- First scenario product of specification section 8: the wireless
headphones (featured, in stock, tags wireless and audio). -/
def wirelessHeadphones : Product :=
  { name := "Wireless Headphones".toList
  , price := 2999
  , tags := ["wireless".toList, "audio".toList]
  , inventory := { inStock := true, quantity := 10, lowStockThreshold := 2, reservedQuantity := 0 }
  , featured := true }

/-- Second scenario product of specification section 8: the wired mouse
(in stock, not featured, tag wired). -/
def wiredMouse : Product :=
  { name := "Wired Mouse".toList
  , price := 999
  , tags := ["wired".toList]
  , inventory := { inStock := true, quantity := 5, lowStockThreshold := 2, reservedQuantity := 0 } }

/-- A product whose name carries the token `zzz` inside. -/
def zzzInside : Product := { name := "a zzz".toList, category := "c".toList }

/-- A product whose name is exactly `zzz`. -/
def zzzExact : Product := { name := "zzz".toList, category := "c".toList }

/-- A filter specification carrying only the free-text query `zzz`. -/
def zzzFilters : FilterParams := { search := some "zzz".toList }

/-- A featured product that matches no query text and is out of stock:
its whole relevance score is the featured boost. -/
def featuredOnly : Product := { name := "plain".toList, featured := true }

/-- A product whose name and description only together contain the
two-word query `red fast`. -/
def crossField : Product :=
  { name := "red".toList, description := "fast".toList, category := "x".toList }

/-- Inserting with `insertLe` is a permutation with consing. -/
theorem insertLe_perm {α : Type} (le : α → α → Bool) (x : α) :
    ∀ l : List α, List.Perm (insertLe le x l) (x :: l) := by
  intro l
  induction l with
  | nil => simp [insertLe]
  | cons y ys ih =>
    unfold insertLe
    by_cases h : le y x = true
    · simp only [h, if_true]
      exact (ih.cons y).trans (List.Perm.swap x y ys)
    · simp only [Bool.not_eq_true] at h
      simp only [h]
      exact List.Perm.refl _

/-- The fold of `insertLe` permutes the accumulator followed by the
remaining input. -/
theorem foldl_insertLe_perm {α : Type} (le : α → α → Bool) :
    ∀ (l acc : List α), List.Perm (l.foldl (fun a x => insertLe le x a) acc) (acc ++ l) := by
  intro l
  induction l with
  | nil => intro acc; simp
  | cons x xs ih =>
    intro acc
    have h1 := ih (insertLe le x acc)
    have h2 : List.Perm (insertLe le x acc ++ xs) ((x :: acc) ++ xs) :=
      (insertLe_perm le x acc).append_right xs
    have h3 : List.Perm ((x :: acc) ++ xs) (acc ++ x :: xs) := List.perm_middle.symm
    simpa using (h1.trans (h2.trans h3))

/-- The stable sort is a permutation of its input. -/
theorem stableSortBy_perm {α : Type} (le : α → α → Bool) (l : List α) :
    List.Perm (stableSortBy le l) l := by
  simpa [stableSortBy] using foldl_insertLe_perm le l []

/-- Membership is preserved by the stable sort. -/
theorem mem_stableSortBy {α : Type} {le : α → α → Bool} {l : List α} {a : α} :
    a ∈ stableSortBy le l ↔ a ∈ l :=
  (stableSortBy_perm le l).mem_iff

/-- Slicing a list into consecutive blocks of size `L` and
concatenating the `ceil(length/L)` blocks reproduces the list. -/
theorem pages_cover {α : Type} (L : Nat) (hL : 0 < L) :
    ∀ (k : Nat) (l : List α), (l.length + L - 1) / L = k →
      ((List.range k).map (fun i => (l.drop (i * L)).take L)).flatten = l := by
  intro k
  induction k with
  | zero =>
    intro l hl
    have hlen : l.length = 0 := by
      by_contra hne
      have h1 : l.length + L - 1 = (l.length - 1) + L := by omega
      rw [h1, Nat.add_div_right _ hL] at hl
      exact Nat.succ_ne_zero _ hl
    rw [List.length_eq_zero.mp hlen]
    simp
  | succ k ih =>
    intro l hl
    have hpos : 0 < l.length := by
      by_contra hne
      have h0 : l.length = 0 := by omega
      rw [h0] at hl
      have h1 : (0 + L - 1) / L = 0 := Nat.div_eq_of_lt (by omega)
      rw [h1] at hl
      exact Nat.succ_ne_zero k hl.symm
    have hk : (l.length - 1) / L = k := by
      have h1 : l.length + L - 1 = (l.length - 1) + L := by omega
      rw [h1, Nat.add_div_right _ hL] at hl
      exact Nat.succ_injective hl
    have hrec : ((l.drop L).length + L - 1) / L = k := by
      rw [List.length_drop]
      by_cases hc : l.length ≤ L
      · have h2 : l.length - L = 0 := by omega
        have h3 : (0 + L - 1) / L = 0 := Nat.div_eq_of_lt (by omega)
        have h4 : (l.length - 1) / L = 0 := Nat.div_eq_of_lt (by omega)
        rw [h2, h3]
        rw [hk] at h4
        exact h4.symm
      · have h2 : l.length - L + L - 1 = l.length - 1 := by omega
        rw [h2, hk]
    have htail := ih (l.drop L) hrec
    rw [List.range_succ_eq_map, List.map_cons, List.map_map, List.flatten_cons]
    have hfun : ((fun i => (l.drop (i * L)).take L) ∘ Nat.succ) =
        fun i => ((l.drop L).drop (i * L)).take L := by
      funext i
      simp only [Function.comp]
      rw [List.drop_drop]
      congr 2
      rw [Nat.succ_mul]
      omega
    rw [hfun, htail]
    simp only [Nat.zero_mul, List.drop_zero]
    exact List.take_append_drop L l

/-- Folding an addition equals the initial value plus the sum of the
mapped list. -/
theorem foldl_add_map_sum {α : Type} (f : α → Nat) :
    ∀ (l : List α) (a : Nat), l.foldl (fun acc x => acc + f x) a = a + (l.map f).sum := by
  intro l
  induction l with
  | nil => intro a; simp
  | cons x xs ih =>
    intro a
    simp only [List.foldl_cons, List.map_cons, List.sum_cons]
    rw [ih]
    omega

/-- A pointwise split of a summand distributes over the sum of a map. -/
theorem sum_map_split {α : Type} (f g h : α → Nat) (hfgh : ∀ x, f x = g x + h x) :
    ∀ l : List α, (l.map f).sum = (l.map g).sum + (l.map h).sum := by
  intro l
  induction l with
  | nil => simp
  | cons x xs ih =>
    simp only [List.map_cons, List.sum_cons, ih, hfgh x]
    omega

/-- C1 (counterexample): on the two products `a zzz` and `zzz` with the
single filter `search = "zzz"`, the orchestrator `getProducts` returns
the products in input order, while the pipeline the specification
defines ranks the exact name match first via `searchProducts`; the two
data sequences differ, so `getProducts` does not implement the
specification's pipeline. -/
theorem getProducts_spec_pipeline_cex :
    (getProducts [zzzInside, zzzExact] zzzFilters).data ≠
      (specQueryPipeline [zzzInside, zzzExact] zzzFilters).page.data := by
  decide

/-- C1 (amended): `getProducts` is the composition
filter → sort → paginate.  The free-text query is consumed inside
`filterProducts` as a plain substring test, the relevance-scoring
`searchProducts` is never invoked, and the returned envelope carries
only data and pagination — no facet summary. -/
theorem getProducts_pipeline_amended (ps : List Product) (f : FilterParams) :
    getProducts ps f =
      paginateResults (sortProducts (filterProducts ps f) f.sortBy)
        (jsOrNum f.page 1) (jsOrNum f.limit 12) := rfl

/-- C2 (counterexample): `searchProducts "wireless"` on the two scenario
products does not return only the headphones — the wired mouse is in
stock, scores the in-stock bonus and is returned as well. -/
theorem search_scenario_cex :
    searchProducts "wireless".toList [wirelessHeadphones, wiredMouse] ≠
      [wirelessHeadphones] := by
  decide

/-- C2 (amended): `searchProducts "wireless"` on the scenario products
returns both, the headphones first with score 98
(50 name-contains + 10 starts-with + 30 exact tag + 5 featured +
3 in-stock) and the mouse second with score 3 (in-stock bonus only). -/
theorem search_scenario_amended :
    searchProducts "wireless".toList [wirelessHeadphones, wiredMouse] =
      [wirelessHeadphones, wiredMouse] ∧
    scoreOf (trimL (strLower "wireless".toList)) wirelessHeadphones = 98 ∧
    scoreOf (trimL (strLower "wireless".toList)) wiredMouse = 3 := by
  refine ⟨by decide, by decide, by decide⟩

/-- C3 (counterexample): a featured product that matches no field of
the query `zzz` and is out of stock scores 5, not the 3 the
specification's weighted-scoring table assigns to the featured row. -/
theorem featured_bonus_cex :
    scoreOf (trimL (strLower "zzz".toList)) featuredOnly ≠ 3 ∧
    scoreOf (trimL (strLower "zzz".toList)) featuredOnly = 5 := by
  refine ⟨by decide, by decide⟩

/-- C3 (amended): the relevance score is exactly the sum of the
weighted-scoring table rows with the featured row weighted 5 (the
in-stock row keeps 3), and every product returned by `searchProducts`
has a strictly positive score — products scoring 0 are discarded. -/
theorem score_table_amended :
    (∀ (t : Str) (p : Product), scoreOf t p = (scoreContributions t p).sum) ∧
    (∀ (q : Str) (ps : List Product) (p : Product),
      p ∈ searchProducts q ps → 0 < scoreOf (trimL (strLower q)) p) := by
  constructor
  · intro t p
    have hname : nameScoreOf t p =
        (if strLower p.name == t then 100 else 0) +
          ((if strLower p.name != t && containsL t (strLower p.name) then 50 else 0) +
            (if strLower p.name != t && containsL t (strLower p.name) &&
                startsWithL t (strLower p.name) then 10 else 0)) := by
      unfold nameScoreOf
      by_cases h1 : strLower p.name = t
      · simp [h1]
      · by_cases h2 : containsL t (strLower p.name) = true
        · by_cases h3 : startsWithL t (strLower p.name) = true <;> simp [h1, h2, h3]
        · simp [h1, h2]
    have htags : tagsScoreOf t p =
        (p.tags.map fun tag => if strLower tag == t then 30 else 0).sum +
          (p.tags.map fun tag =>
            if strLower tag != t && containsL t (strLower tag) then 10 else 0).sum := by
      unfold tagsScoreOf
      rw [foldl_add_map_sum]
      rw [Nat.zero_add]
      exact sum_map_split _ _ _
        (fun tag => by
          by_cases h1 : strLower tag = t
          · simp [h1]
          · by_cases h2 : containsL t (strLower tag) = true <;> simp [h1, h2])
        p.tags
    unfold scoreOf scoreContributions
    simp only [List.sum_cons, List.sum_nil]
    rw [hname, htags]
    simp only [descScoreOf, longDescScoreOf, categoryScoreOf]
    rcases hld : p.longDescription with _ | d <;> simp only [hld] <;> omega
  · intro q ps p hp
    simp only [searchProducts] at hp
    by_cases hq : (trimL (strLower q)).isEmpty = true
    · simp [hq] at hp
    · simp only [hq, Bool.false_eq_true, if_false] at hp
      rw [List.mem_map] at hp
      obtain ⟨x, hx, hxp⟩ := hp
      rw [mem_stableSortBy, List.mem_filter] at hx
      obtain ⟨hx1, hx2⟩ := hx
      rw [List.mem_map] at hx1
      obtain ⟨p0, _, hpx⟩ := hx1
      rw [← hpx] at hx2 hxp
      simp only at hx2 hxp
      rw [← hxp]
      exact of_decide_eq_true hx2

/-- C4 (counterexample): on the one-product list, the search stage with
the empty query does not return the list unchanged — it returns the
empty list. -/
theorem search_empty_query_cex :
    searchProducts "".toList [wirelessHeadphones] ≠ [wirelessHeadphones] := by
  decide

/-- C4 (amended): for every product list and every query that is empty
after lower-casing and trimming, `searchProducts` returns the empty
list (the pipeline-level no-op of the specification exists only where a
caller skips the stage; the stage itself empties the list). -/
theorem search_empty_query_amended (q : Str) (P : List Product)
    (h : (trimL (strLower q)).isEmpty = true) : searchProducts q P = [] := by
  simp only [searchProducts, h, if_true]

/-- C4 (witness): the whitespace query is empty after trimming and the
amended statement evaluates on a concrete list. -/
theorem search_empty_query_amended_witness :
    (trimL (strLower " ".toList)).isEmpty = true ∧
      searchProducts " ".toList [wirelessHeadphones] = [] :=
  ⟨by decide, search_empty_query_amended " ".toList [wirelessHeadphones] (by decide)⟩

/-- C5 (counterexample): the facet summary of the empty product list
does not carry the documented `{0,0}` sentinel price range. -/
theorem facets_empty_cex :
    (getAvailableFilterOptions []).priceRange ≠
      { min := JsNum.num 0, max := JsNum.num 0 } := by
  decide

/-- C5 (amended): the facet summary of the empty list has empty
categories and tags, and the price range `Math.min()`/`Math.max()` of
an empty spread: `{min: Infinity, max: -Infinity}`. -/
theorem facets_empty_amended :
    getAvailableFilterOptions [] =
      { categories := []
      , tags := []
      , priceRange := { min := JsNum.posInf, max := JsNum.negInf } } := rfl

/-- C6 (counterexample): paginating the empty list at page 2 reports
`hasPrev = true`, because `hasPrev` compares the normalized page with 1
regardless of the total. -/
theorem paginate_empty_hasPrev_cex :
    (paginateResults ([] : List Nat) 2 10).pagination.hasPrev = true := by
  decide

/-- C6 (amended): on the empty list `totalPages = 0` and
`hasNext = false` for every page and limit, but `hasPrev` is the test
`1 < page` on the (integral) page argument, so it is `false` only for
pages at most 1. -/
theorem paginate_empty_amended {α : Type} (page limit : Int) :
    (paginateResults ([] : List α) page limit).pagination.totalPages = 0 ∧
    (paginateResults ([] : List α) page limit).pagination.hasNext = false ∧
    (paginateResults ([] : List α) page limit).pagination.hasPrev = decide (1 < page) := by
  have hL : 0 < normLimit limit := by unfold normLimit; omega
  have htp : ((0 : Nat) + normLimit limit - 1) / normLimit limit = 0 :=
    Nat.div_eq_of_lt (by omega)
  refine ⟨?_, ?_, ?_⟩
  · show (List.length ([] : List α) + normLimit limit - 1) / normLimit limit = 0
    rw [List.length_nil]
    exact htp
  · show decide (normPage page <
        (List.length ([] : List α) + normLimit limit - 1) / normLimit limit) = false
    rw [List.length_nil, htp]
    simp
  · show decide (1 < normPage page) = decide (1 < page)
    rw [decide_eq_decide]
    unfold normPage
    omega

/-- C7: for every item list and every limit between 1 and 100,
concatenating the data slices of `paginateResults` for pages 1 up to
`totalPages` (same limit throughout) reproduces the input list exactly,
with no gaps and no duplicates. -/
theorem paginate_partition {α : Type} (items : List α) (limit : Int)
    (h1 : 1 ≤ limit) (h2 : limit ≤ 100) :
    ((List.range ((paginateResults items 1 limit).pagination.totalPages)).map
      (fun i : Nat => (paginateResults items ((i : Int) + 1) limit).data)).flatten = items := by
  have hL : normLimit limit = limit.toNat := by unfold normLimit; omega
  have hLpos : 0 < limit.toNat := by omega
  have hdata : ∀ i : Nat, (paginateResults items ((i : Int) + 1) limit).data =
      (items.drop (i * limit.toNat)).take limit.toNat := by
    intro i
    show (items.drop ((normPage ((i : Int) + 1) - 1) * normLimit limit)).take (normLimit limit) =
      (items.drop (i * limit.toNat)).take limit.toNat
    have hp : normPage ((i : Int) + 1) = i + 1 := by unfold normPage; omega
    rw [hp, hL, Nat.add_sub_cancel]
  have htp : (paginateResults items 1 limit).pagination.totalPages =
      (items.length + limit.toNat - 1) / limit.toNat := by
    show (items.length + normLimit limit - 1) / normLimit limit = _
    rw [hL]
  rw [htp, funext hdata]
  exact pages_cover limit.toNat hLpos _ items rfl

/-- C7 (witness): three items with limit 2 are covered by the two
pages. -/
theorem paginate_partition_witness :
    (1 : Int) ≤ 2 ∧ (2 : Int) ≤ 100 ∧
    ((List.range ((paginateResults ([10, 20, 30] : List Nat) 1 2).pagination.totalPages)).map
      (fun i : Nat => (paginateResults ([10, 20, 30] : List Nat) ((i : Int) + 1) 2).data)).flatten =
      [10, 20, 30] :=
  ⟨by decide, by decide, paginate_partition [10, 20, 30] 2 (by decide) (by decide)⟩

/-- C8: whenever the trimmed lower-cased query is non-empty, every
in-stock product and every featured product of the input appears in the
output of `searchProducts`, even when the query matches no field: its
unconditional availability or featured bonus makes its score positive,
and positive scores are never discarded. -/
theorem search_keeps_instock_featured (q : Str) (ps : List Product) (p : Product)
    (hq : (trimL (strLower q)).isEmpty = false) (hp : p ∈ ps)
    (hs : p.inventory.inStock = true ∨ p.featured = true) :
    p ∈ searchProducts q ps := by
  have hscore : 0 < scoreOf (trimL (strLower q)) p := by
    unfold scoreOf
    rcases hs with h | h
    · simp only [h, if_true]
      omega
    · simp only [h, if_true]
      omega
  simp only [searchProducts, hq, Bool.false_eq_true, if_false]
  rw [List.mem_map]
  refine ⟨(p, scoreOf (trimL (strLower q)) p), ?_, rfl⟩
  rw [mem_stableSortBy, List.mem_filter]
  exact ⟨List.mem_map_of_mem _ hp, decide_eq_true hscore⟩

/-- C8 (witness): the in-stock, featured headphones are kept by the
query `zzz`, which occurs in none of their fields. -/
theorem search_keeps_instock_featured_witness :
    (trimL (strLower "zzz".toList)).isEmpty = false ∧
      wirelessHeadphones ∈ searchProducts "zzz".toList [wirelessHeadphones] :=
  ⟨by decide,
    search_keeps_instock_featured "zzz".toList [wirelessHeadphones] wirelessHeadphones
      (by decide) (by decide) (Or.inl (by decide))⟩

/-- C9: an explicit `inStock = false` in the filter specification is
falsy in the `filters.inStock && !product.inventory.inStock` guard, so
`filterProducts` behaves exactly as with the flag absent: it never
restricts the result to out-of-stock products. -/
theorem filter_inStock_false_noop (ps : List Product) (f : FilterParams) :
    filterProducts ps { f with inStock := some false } =
      filterProducts ps { f with inStock := none } := rfl

/-- C10: the free-text criterion of `filterProducts` tests the
space-joined concatenation of name, description, tags and category, so
the query `red fast` accepts a product whose name is `red` and
description is `fast` although no single field contains the query. -/
theorem filter_search_cross_field :
    filterProducts [crossField] { search := some "red fast".toList } = [crossField] ∧
    containsL (trimL (strLower "red fast".toList)) (strLower crossField.name) = false ∧
    containsL (trimL (strLower "red fast".toList)) (strLower crossField.description) = false ∧
    crossField.tags = [] ∧
    containsL (trimL (strLower "red fast".toList)) (strLower crossField.category) = false := by
  refine ⟨by decide, by decide, by decide, by decide, by decide⟩

/-- C3 (witness): the wired mouse is returned for the query `wireless`
and its score is positive. -/
theorem score_table_amended_witness :
    0 < scoreOf (trimL (strLower "wireless".toList)) wiredMouse :=
  score_table_amended.2 "wireless".toList [wirelessHeadphones, wiredMouse] wiredMouse (by decide)
